import Mathlib

/-!
Verification of the two-body orbit and double-pendulum notebooks.

The repository consists of two notebooks, each defining a parameter class
with a right-hand-side method `dy_dt` for a first-order ODE system and a
driver `solve_ode` that hands the vector field to an external adaptive
solver (`solve_ivp`).  We embed the parameter classes as structures over ℝ,
the vector fields as functions on fixed-size state vectors, and the solver
invocation as an explicit record of the arguments passed to the external
solver, which is itself modelled as an abstract function satisfying its
documented shape contract.
-/

/-- Parameter container of the `Orbit` class: masses of the two bodies and
the gravitational constant. -/
structure Orbit where
  m1 : ℝ
  m2 : ℝ
  G : ℝ

/-- The local variable `dom` of `Orbit.dy_dt`:
`np.sqrt((y[0]-y[4])**2+(y[2]-y[6])**2)`, the Euclidean separation between
the two bodies' positions `(y 0, y 2)` and `(y 4, y 6)`. -/
noncomputable def Orbit.dom (y : Fin 8 → ℝ) : ℝ :=
  Real.sqrt ((y 0 - y 4) ^ 2 + (y 2 - y 6) ^ 2)

/-- Right-hand side of the two-body ODE system, translated literally from
`Orbit.dy_dt` in `Orbit-final_v1.ipynb`.  State layout:
`y 0 = x_1, y 1 = x_dot_1, y 2 = y_1, y 3 = y_dot_1,
 y 4 = x_2, y 5 = x_dot_2, y 6 = y_2, y 7 = y_dot_2`. -/
noncomputable def Orbit.dy_dt (p : Orbit) (_t : ℝ) (y : Fin 8 → ℝ) : Fin 8 → ℝ :=
  ![y 1, p.G * p.m2 * (y 4 - y 0) / (Orbit.dom y) ^ 3,
    y 3, p.G * p.m2 * (y 6 - y 2) / (Orbit.dom y) ^ 3,
    y 5, -p.G * p.m1 * (y 4 - y 0) / (Orbit.dom y) ^ 3,
    y 7, -p.G * p.m1 * (y 6 - y 2) / (Orbit.dom y) ^ 3]

/-- Parameter container of the `DoublePendulum` class: arm lengths, bob
masses, gravitational acceleration. -/
structure DoublePendulum where
  L1 : ℝ
  L2 : ℝ
  m1 : ℝ
  m2 : ℝ
  g : ℝ

/-- The shared parenthesized denominator factor
`2.*self.m1 + self.m2 - self.m2*np.cos(2*y[0]-2*y[2])` appearing (twice,
verbatim) in the angular-acceleration components of
`DoublePendulum.dy_dt`. -/
noncomputable def DoublePendulum.denom (p : DoublePendulum) (phi1 phi2 : ℝ) : ℝ :=
  2 * p.m1 + p.m2 - p.m2 * Real.cos (2 * phi1 - 2 * phi2)

/-- Right-hand side of the double-pendulum ODE system, translated literally
from `DoublePendulum.dy_dt` in `pendulum-final_v1.ipynb`.  State layout:
`y 0 = phi_1, y 1 = dphi_1/dt, y 2 = phi_2, y 3 = dphi_2/dt`.  The repeated
denominator subexpression is abbreviated by `DoublePendulum.denom`. -/
noncomputable def DoublePendulum.dy_dt (p : DoublePendulum) (_t : ℝ) (y : Fin 4 → ℝ) :
    Fin 4 → ℝ :=
  ![y 1,
    (-p.g * (2 * p.m1 + p.m2) * Real.sin (y 0) - p.m2 * p.g * Real.sin (y 0 - 2 * y 2)
        - 2 * Real.sin (y 0 - y 2) * p.m2 *
          ((y 3) ^ 2 * p.L2 + (y 1) ^ 2 * p.L1 * Real.cos (y 0 - y 2)))
      / (p.L1 * p.denom (y 0) (y 2)),
    y 3,
    (2 * Real.sin (y 0 - y 2) *
        ((y 1) ^ 2 * p.L1 * (p.m1 + p.m2) + (p.m1 + p.m2) * p.g * Real.cos (y 0)
          + (y 3) ^ 2 * p.L2 * p.m2 * Real.cos (y 0 - y 2)))
      / (p.L2 * p.denom (y 0) (y 2))]

/-- The argument record of one `solve_ivp` invocation: right-hand-side
function, integration span `(t0, tf)`, initial state list, evaluation
times, and the absolute/relative tolerances. -/
structure IVPCall (n : ℕ) where
  rhs : ℝ → (Fin n → ℝ) → (Fin n → ℝ)
  t0 : ℝ
  tf : ℝ
  y0 : List ℝ
  t_eval : List ℝ
  atol : ℝ
  rtol : ℝ

/-- The `solve_ivp` invocation constructed by `Orbit.solve_ode`:
`solve_ivp(self.dy_dt, (t_pts[0], t_pts[-1]), y, t_eval=t_pts,
atol=abserr, rtol=relerr)` with
`y = [x_1_0, x_1_dot_0, y_1_0, y_1_dot_0, x_2_0, x_2_dot_0, y_2_0, y_2_dot_0]`. -/
noncomputable def Orbit.solve_ode_call (p : Orbit) (t_pts : List ℝ)
    (x_1_0 x_1_dot_0 y_1_0 y_1_dot_0 x_2_0 x_2_dot_0 y_2_0 y_2_dot_0
      abserr relerr : ℝ) : IVPCall 8 :=
  { rhs := p.dy_dt
    t0 := t_pts.headD 0
    tf := t_pts.getLastD 0
    y0 := [x_1_0, x_1_dot_0, y_1_0, y_1_dot_0, x_2_0, x_2_dot_0, y_2_0, y_2_dot_0]
    t_eval := t_pts
    atol := abserr
    rtol := relerr }

/-- The `Orbit.solve_ode` method, parametrized over the external solver.
The unpacking `x_1, ..., y_dot_2 = solution.y` succeeds exactly when the
solver returns eight per-component rows, in which case those rows are
returned unchanged. -/
noncomputable def Orbit.solve_ode (p : Orbit) (solver : IVPCall 8 → List (List ℝ))
    (t_pts : List ℝ)
    (x_1_0 x_1_dot_0 y_1_0 y_1_dot_0 x_2_0 x_2_dot_0 y_2_0 y_2_dot_0
      abserr relerr : ℝ) : Option (List (List ℝ)) :=
  let solution := solver (p.solve_ode_call t_pts x_1_0 x_1_dot_0 y_1_0 y_1_dot_0
    x_2_0 x_2_dot_0 y_2_0 y_2_dot_0 abserr relerr)
  if solution.length = 8 then some solution else none

/-- The call to `Orbit.solve_ode` with the default tolerances
`abserr=1.0e-9, relerr=1.0e-9` of its Python signature. -/
noncomputable def Orbit.solve_ode_default (p : Orbit)
    (solver : IVPCall 8 → List (List ℝ)) (t_pts : List ℝ)
    (x_1_0 x_1_dot_0 y_1_0 y_1_dot_0 x_2_0 x_2_dot_0 y_2_0 y_2_dot_0 : ℝ) :
    Option (List (List ℝ)) :=
  p.solve_ode solver t_pts x_1_0 x_1_dot_0 y_1_0 y_1_dot_0 x_2_0 x_2_dot_0
    y_2_0 y_2_dot_0 (1e-9) (1e-9)

/-- The `solve_ivp` invocation constructed by `DoublePendulum.solve_ode`:
`solve_ivp(self.dy_dt, (t_pts[0], t_pts[-1]), y, t_eval=t_pts,
atol=abserr, rtol=relerr)` with
`y = [phi_1_0, phi_1_dot_0, phi_2_0, phi_2_dot_0]`. -/
noncomputable def DoublePendulum.solve_ode_call (p : DoublePendulum) (t_pts : List ℝ)
    (phi_1_0 phi_1_dot_0 phi_2_0 phi_2_dot_0 abserr relerr : ℝ) : IVPCall 4 :=
  { rhs := p.dy_dt
    t0 := t_pts.headD 0
    tf := t_pts.getLastD 0
    y0 := [phi_1_0, phi_1_dot_0, phi_2_0, phi_2_dot_0]
    t_eval := t_pts
    atol := abserr
    rtol := relerr }

/-- The `DoublePendulum.solve_ode` method, parametrized over the external
solver.  The unpacking `phi_1, phi_1_dot, phi_2, phi_2_dot = solution.y`
succeeds exactly when the solver returns four per-component rows. -/
noncomputable def DoublePendulum.solve_ode (p : DoublePendulum)
    (solver : IVPCall 4 → List (List ℝ)) (t_pts : List ℝ)
    (phi_1_0 phi_1_dot_0 phi_2_0 phi_2_dot_0 abserr relerr : ℝ) :
    Option (List (List ℝ)) :=
  let solution := solver (p.solve_ode_call t_pts phi_1_0 phi_1_dot_0 phi_2_0
    phi_2_dot_0 abserr relerr)
  if solution.length = 4 then some solution else none

/-- The call to `DoublePendulum.solve_ode` with the default tolerances
`abserr=1.0e-9, relerr=1.0e-9` of its Python signature. -/
noncomputable def DoublePendulum.solve_ode_default (p : DoublePendulum)
    (solver : IVPCall 4 → List (List ℝ)) (t_pts : List ℝ)
    (phi_1_0 phi_1_dot_0 phi_2_0 phi_2_dot_0 : ℝ) : Option (List (List ℝ)) :=
  p.solve_ode solver t_pts phi_1_0 phi_1_dot_0 phi_2_0 phi_2_dot_0 (1e-9) (1e-9)

/-- Index and value of the first minimum of a list, mirroring
`np.argmin` (which returns the first index attaining the minimum). -/
noncomputable def argminP : List ℝ → ℕ × ℝ
  | [] => (0, 0)
  | [a] => (0, a)
  | a :: b :: rs =>
    let p := argminP (b :: rs)
    if p.2 < a then (p.1 + 1, p.2) else (0, a)

/-- The helper `start_stop_indices(t_pts, plot_start, plot_stop)`:
`(np.fabs(t_pts-plot_start)).argmin()` and
`(np.fabs(t_pts-plot_stop)).argmin()` (first verbatim definition in
`Orbit-final_v1.ipynb`). -/
noncomputable def start_stop_indices (t_pts : List ℝ) (plot_start plot_stop : ℝ) :
    ℕ × ℕ :=
  ((argminP (t_pts.map (fun t => |t - plot_start|))).1,
   (argminP (t_pts.map (fun t => |t - plot_stop|))).1)

/-- The second, verbatim-identical definition of `start_stop_indices`
appearing later in `Orbit-final_v1.ipynb` (Python rebinds the name; we keep
both definitions to compare them). -/
noncomputable def start_stop_indices2 (t_pts : List ℝ) (plot_start plot_stop : ℝ) :
    ℕ × ℕ :=
  ((argminP (t_pts.map (fun t => |t - plot_start|))).1,
   (argminP (t_pts.map (fun t => |t - plot_stop|))).1)

/-- C1: For every 8-component state with nonzero separation, `Orbit.dy_dt`
returns Newtonian inverse-square accelerations: body 1's acceleration is
`G*m2*(r2-r1)/d^3` (toward body 2) and body 2's is `G*m1*(r1-r2)/d^3`
(toward body 1), component-wise in x and y, where `d` is the Euclidean
distance between the positions. -/
theorem orbit_dy_dt_newtonian (p : Orbit) (t : ℝ) (y : Fin 8 → ℝ)
    (h : Orbit.dom y ≠ 0) :
    Orbit.dy_dt p t y 1 = p.G * p.m2 * (y 4 - y 0) / Orbit.dom y ^ 3 ∧
    Orbit.dy_dt p t y 3 = p.G * p.m2 * (y 6 - y 2) / Orbit.dom y ^ 3 ∧
    Orbit.dy_dt p t y 5 = p.G * p.m1 * (y 0 - y 4) / Orbit.dom y ^ 3 ∧
    Orbit.dy_dt p t y 7 = p.G * p.m1 * (y 2 - y 6) / Orbit.dom y ^ 3 := by
  refine ⟨rfl, rfl, ?_, ?_⟩
  · show -p.G * p.m1 * (y 4 - y 0) / Orbit.dom y ^ 3 =
      p.G * p.m1 * (y 0 - y 4) / Orbit.dom y ^ 3
    ring
  · show -p.G * p.m1 * (y 6 - y 2) / Orbit.dom y ^ 3 =
      p.G * p.m1 * (y 2 - y 6) / Orbit.dom y ^ 3
    ring

/-- Witness for C1 at the notebook parameters `m1=20, m2=1, G=20` and the
state with body 1 at the origin and body 2 at `(1, 0)`. -/
theorem orbit_dy_dt_newtonian_witness :
    Orbit.dom ![0, 0, 0, 0, 1, 0, 0, 0] ≠ 0 ∧
    (Orbit.dy_dt ⟨20, 1, 20⟩ 0 ![0, 0, 0, 0, 1, 0, 0, 0] 1 =
        20 * 1 * (1 - 0) / Orbit.dom ![0, 0, 0, 0, 1, 0, 0, 0] ^ 3 ∧
      Orbit.dy_dt ⟨20, 1, 20⟩ 0 ![0, 0, 0, 0, 1, 0, 0, 0] 3 =
        20 * 1 * (0 - 0) / Orbit.dom ![0, 0, 0, 0, 1, 0, 0, 0] ^ 3 ∧
      Orbit.dy_dt ⟨20, 1, 20⟩ 0 ![0, 0, 0, 0, 1, 0, 0, 0] 5 =
        20 * 20 * (0 - 1) / Orbit.dom ![0, 0, 0, 0, 1, 0, 0, 0] ^ 3 ∧
      Orbit.dy_dt ⟨20, 1, 20⟩ 0 ![0, 0, 0, 0, 1, 0, 0, 0] 7 =
        20 * 20 * (0 - 0) / Orbit.dom ![0, 0, 0, 0, 1, 0, 0, 0] ^ 3) := by
  have h : Orbit.dom ![(0 : ℝ), 0, 0, 0, 1, 0, 0, 0] ≠ 0 := by
    show Real.sqrt ((0 - 1) ^ 2 + (0 - 0) ^ 2) ≠ 0
    norm_num
  exact ⟨h, orbit_dy_dt_newtonian ⟨20, 1, 20⟩ 0 ![0, 0, 0, 0, 1, 0, 0, 0] h⟩

/-- C2: For every state with nonzero separation, the mass-weighted sum of
the two acceleration vectors returned by `Orbit.dy_dt` vanishes
component-wise: `m1 * a1 + m2 * a2 = 0` in x and in y. -/
theorem orbit_momentum_cancel (p : Orbit) (t : ℝ) (y : Fin 8 → ℝ)
    (h : Orbit.dom y ≠ 0) :
    p.m1 * Orbit.dy_dt p t y 1 + p.m2 * Orbit.dy_dt p t y 5 = 0 ∧
    p.m1 * Orbit.dy_dt p t y 3 + p.m2 * Orbit.dy_dt p t y 7 = 0 := by
  constructor
  · show p.m1 * (p.G * p.m2 * (y 4 - y 0) / Orbit.dom y ^ 3) +
        p.m2 * (-p.G * p.m1 * (y 4 - y 0) / Orbit.dom y ^ 3) = 0
    ring
  · show p.m1 * (p.G * p.m2 * (y 6 - y 2) / Orbit.dom y ^ 3) +
        p.m2 * (-p.G * p.m1 * (y 6 - y 2) / Orbit.dom y ^ 3) = 0
    ring

/-- Witness for C2 at `m1=20, m2=1, G=20` and separation 1 along x. -/
theorem orbit_momentum_cancel_witness :
    Orbit.dom ![0, 0, 0, 0, 1, 0, 0, 0] ≠ 0 ∧
    (20 * Orbit.dy_dt ⟨20, 1, 20⟩ 0 ![0, 0, 0, 0, 1, 0, 0, 0] 1 +
        1 * Orbit.dy_dt ⟨20, 1, 20⟩ 0 ![0, 0, 0, 0, 1, 0, 0, 0] 5 = 0 ∧
      20 * Orbit.dy_dt ⟨20, 1, 20⟩ 0 ![0, 0, 0, 0, 1, 0, 0, 0] 3 +
        1 * Orbit.dy_dt ⟨20, 1, 20⟩ 0 ![0, 0, 0, 0, 1, 0, 0, 0] 7 = 0) := by
  have h : Orbit.dom ![(0 : ℝ), 0, 0, 0, 1, 0, 0, 0] ≠ 0 := by
    show Real.sqrt ((0 - 1) ^ 2 + (0 - 0) ^ 2) ≠ 0
    norm_num
  exact ⟨h, orbit_momentum_cancel ⟨20, 1, 20⟩ 0 ![0, 0, 0, 0, 1, 0, 0, 0] h⟩

/-- C3: For every state with nonzero separation, the position-derivative
components (indices 0, 2, 4, 6) of the vector returned by `Orbit.dy_dt`
are exactly the corresponding velocity components of the input. -/
theorem orbit_velocity_passthrough (p : Orbit) (t : ℝ) (y : Fin 8 → ℝ)
    (h : Orbit.dom y ≠ 0) :
    Orbit.dy_dt p t y 0 = y 1 ∧ Orbit.dy_dt p t y 2 = y 3 ∧
    Orbit.dy_dt p t y 4 = y 5 ∧ Orbit.dy_dt p t y 6 = y 7 :=
  ⟨rfl, rfl, rfl, rfl⟩

/-- Witness for C3 at `m1=20, m2=1, G=20`, body 2 at `(1, 0)`, body 1
moving with velocity `(0, 0.75)` as in the notebook driver. -/
theorem orbit_velocity_passthrough_witness :
    Orbit.dom ![0, 0, 0, 0.75, 1, 0, 0, 0] ≠ 0 ∧
    (Orbit.dy_dt ⟨20, 1, 20⟩ 0 ![0, 0, 0, 0.75, 1, 0, 0, 0] 0 = 0 ∧
      Orbit.dy_dt ⟨20, 1, 20⟩ 0 ![0, 0, 0, 0.75, 1, 0, 0, 0] 2 = 0.75 ∧
      Orbit.dy_dt ⟨20, 1, 20⟩ 0 ![0, 0, 0, 0.75, 1, 0, 0, 0] 4 = 0 ∧
      Orbit.dy_dt ⟨20, 1, 20⟩ 0 ![0, 0, 0, 0.75, 1, 0, 0, 0] 6 = 0) := by
  have h : Orbit.dom ![(0 : ℝ), 0, 0, 0.75, 1, 0, 0, 0] ≠ 0 := by
    show Real.sqrt ((0 - 1) ^ 2 + (0 - 0) ^ 2) ≠ 0
    norm_num
  exact ⟨h, orbit_velocity_passthrough ⟨20, 1, 20⟩ 0 ![0, 0, 0, 0.75, 1, 0, 0, 0] h⟩

/-- C4: With both arms hanging straight down and zero angular velocities
(state `(0, 0, 0, 0)`), the angular accelerations returned by
`DoublePendulum.dy_dt` are exactly zero, for positive lengths and
masses. -/
theorem pendulum_equilibrium_zero (p : DoublePendulum) (t : ℝ)
    (hL1 : 0 < p.L1) (hL2 : 0 < p.L2) (hm1 : 0 < p.m1) (hm2 : 0 ≤ p.m2) :
    DoublePendulum.dy_dt p t ![0, 0, 0, 0] 1 = 0 ∧
    DoublePendulum.dy_dt p t ![0, 0, 0, 0] 3 = 0 := by
  constructor
  · show (-p.g * (2 * p.m1 + p.m2) * Real.sin 0 - p.m2 * p.g * Real.sin (0 - 2 * 0)
        - 2 * Real.sin (0 - 0) * p.m2 *
          ((0 : ℝ) ^ 2 * p.L2 + (0 : ℝ) ^ 2 * p.L1 * Real.cos (0 - 0)))
      / (p.L1 * p.denom 0 0) = 0
    norm_num
  · show (2 * Real.sin (0 - 0) *
        ((0 : ℝ) ^ 2 * p.L1 * (p.m1 + p.m2) + (p.m1 + p.m2) * p.g * Real.cos 0
          + (0 : ℝ) ^ 2 * p.L2 * p.m2 * Real.cos (0 - 0)))
      / (p.L2 * p.denom 0 0) = 0
    norm_num

/-- Witness for C4 at the notebook parameters `L1=L2=m1=m2=g=1`. -/
theorem pendulum_equilibrium_zero_witness :
    (0 : ℝ) < 1 ∧ (0 : ℝ) < 1 ∧ (0 : ℝ) < 1 ∧ (0 : ℝ) ≤ 1 ∧
    (DoublePendulum.dy_dt ⟨1, 1, 1, 1, 1⟩ 0 ![0, 0, 0, 0] 1 = 0 ∧
      DoublePendulum.dy_dt ⟨1, 1, 1, 1, 1⟩ 0 ![0, 0, 0, 0] 3 = 0) :=
  ⟨by norm_num, by norm_num, by norm_num, by norm_num,
    pendulum_equilibrium_zero ⟨1, 1, 1, 1, 1⟩ 0 (by norm_num) (by norm_num)
      (by norm_num) (by norm_num)⟩

/-- C10: Both vector-field evaluators are autonomous: the time argument has
no influence on the returned derivative vector. -/
theorem dy_dt_autonomous :
    (∀ (p : Orbit) (t t' : ℝ) (y : Fin 8 → ℝ),
      Orbit.dy_dt p t y = Orbit.dy_dt p t' y) ∧
    (∀ (q : DoublePendulum) (t t' : ℝ) (y : Fin 4 → ℝ),
      DoublePendulum.dy_dt q t y = DoublePendulum.dy_dt q t' y) :=
  ⟨fun _ _ _ _ => rfl, fun _ _ _ _ => rfl⟩

/-- The denominator factor dominates `2 * m1` because `cos ≤ 1` and
`m2 ≥ 0`: shared helper for the singularity claims. -/
lemma DoublePendulum.denom_ge_two_m1 (p : DoublePendulum) (hm2 : 0 ≤ p.m2)
    (a b : ℝ) : 2 * p.m1 ≤ p.denom a b := by
  have h := Real.cos_le_one (2 * a - 2 * b)
  unfold DoublePendulum.denom
  nlinarith

/-- Counterexample to C5 as stated: at the notebook parameters
`L1=L2=m1=m2=g=1` there is no angle configuration at which either
denominator `L_i * (2*m1 + m2 - m2*cos(2*phi_1 - 2*phi_2))` of
`DoublePendulum.dy_dt` vanishes. -/
theorem pendulum_singularity_counterexample :
    ¬ ∃ phi1 phi2 : ℝ,
      (DoublePendulum.mk 1 1 1 1 1).L1 *
          (DoublePendulum.mk 1 1 1 1 1).denom phi1 phi2 = 0 ∨
        (DoublePendulum.mk 1 1 1 1 1).L2 *
          (DoublePendulum.mk 1 1 1 1 1).denom phi1 phi2 = 0 := by
  rintro ⟨a, b, hc⟩
  have hcos := Real.cos_le_one (2 * a - 2 * b)
  rcases hc with h | h <;>
    · have h' : (1 : ℝ) * (2 * 1 + 1 - 1 * Real.cos (2 * a - 2 * b)) = 0 := h
      nlinarith

/-- C5 (amended): for all positive arm lengths, positive `m1` and
nonnegative `m2` — the notebooks' parameter regime — the denominators
`L_i * (2*m1 + m2 - m2*cos(2*phi_1 - 2*phi_2))` of
`DoublePendulum.dy_dt` never vanish: the evaluator has no reachable
singularity in the angles. -/
theorem pendulum_denominator_never_vanishes (p : DoublePendulum)
    (hL1 : 0 < p.L1) (hL2 : 0 < p.L2) (hm1 : 0 < p.m1) (hm2 : 0 ≤ p.m2)
    (phi1 phi2 : ℝ) :
    p.L1 * p.denom phi1 phi2 ≠ 0 ∧ p.L2 * p.denom phi1 phi2 ≠ 0 := by
  have hd : 0 < p.denom phi1 phi2 :=
    lt_of_lt_of_le (by linarith) (p.denom_ge_two_m1 hm2 phi1 phi2)
  exact ⟨(mul_pos hL1 hd).ne', (mul_pos hL2 hd).ne'⟩

/-- Witness for the amended C5 at the notebook parameters and angles
`(0, 0)`. -/
theorem pendulum_denominator_never_vanishes_witness :
    (0 : ℝ) < 1 ∧ (0 : ℝ) < 1 ∧ (0 : ℝ) < 1 ∧ (0 : ℝ) ≤ 1 ∧
    (1 * (DoublePendulum.mk 1 1 1 1 1).denom 0 0 ≠ 0 ∧
      1 * (DoublePendulum.mk 1 1 1 1 1).denom 0 0 ≠ 0) :=
  ⟨by norm_num, by norm_num, by norm_num, by norm_num,
    pendulum_denominator_never_vanishes ⟨1, 1, 1, 1, 1⟩ (by norm_num)
      (by norm_num) (by norm_num) (by norm_num) 0 0⟩

/-- C6: For every 4-component state and parameters with `m1 > 0`,
`m2 ≥ 0`, `L1 > 0`, `L2 > 0`, the denominator factor of
`DoublePendulum.dy_dt` is bounded below by `2*m1`, hence strictly
positive, and both angular-acceleration divisions have nonzero
denominators: the evaluator is total. -/
theorem pendulum_denominator_total (p : DoublePendulum)
    (hL1 : 0 < p.L1) (hL2 : 0 < p.L2) (hm1 : 0 < p.m1) (hm2 : 0 ≤ p.m2)
    (y : Fin 4 → ℝ) :
    2 * p.m1 ≤ p.denom (y 0) (y 2) ∧ 0 < p.denom (y 0) (y 2) ∧
    p.L1 * p.denom (y 0) (y 2) ≠ 0 ∧ p.L2 * p.denom (y 0) (y 2) ≠ 0 := by
  have hge := p.denom_ge_two_m1 hm2 (y 0) (y 2)
  have hd : 0 < p.denom (y 0) (y 2) := lt_of_lt_of_le (by linarith) hge
  exact ⟨hge, hd, (mul_pos hL1 hd).ne', (mul_pos hL2 hd).ne'⟩

/-- Witness for C6 at the notebook parameters and the zero state. -/
theorem pendulum_denominator_total_witness :
    (0 : ℝ) < 1 ∧ (0 : ℝ) < 1 ∧ (0 : ℝ) < 1 ∧ (0 : ℝ) ≤ 1 ∧
    (2 * 1 ≤ (DoublePendulum.mk 1 1 1 1 1).denom 0 0 ∧
      0 < (DoublePendulum.mk 1 1 1 1 1).denom 0 0 ∧
      1 * (DoublePendulum.mk 1 1 1 1 1).denom 0 0 ≠ 0 ∧
      1 * (DoublePendulum.mk 1 1 1 1 1).denom 0 0 ≠ 0) :=
  ⟨by norm_num, by norm_num, by norm_num, by norm_num,
    pendulum_denominator_total ⟨1, 1, 1, 1, 1⟩ (by norm_num) (by norm_num)
      (by norm_num) (by norm_num) ![0, 0, 0, 0]⟩

/-- C7: The separation `dom` computed by `Orbit.dy_dt` is zero exactly when
the two bodies' positions coincide, and the divisor `dom ^ 3` of every
acceleration component is zero in exactly the same situation — so for
states with distinct positions no division by zero occurs. -/
theorem orbit_div_zero_iff_coincide (y : Fin 8 → ℝ) :
    (Orbit.dom y = 0 ↔ y 0 = y 4 ∧ y 2 = y 6) ∧
    (Orbit.dom y ^ 3 = 0 ↔ y 0 = y 4 ∧ y 2 = y 6) := by
  have key : Orbit.dom y = 0 ↔ y 0 = y 4 ∧ y 2 = y 6 := by
    rw [Orbit.dom, Real.sqrt_eq_zero']
    constructor
    · intro hle
      have h1 : (y 0 - y 4) ^ 2 = 0 := by
        nlinarith [sq_nonneg (y 0 - y 4), sq_nonneg (y 2 - y 6)]
      have h2 : (y 2 - y 6) ^ 2 = 0 := by
        nlinarith [sq_nonneg (y 0 - y 4), sq_nonneg (y 2 - y 6)]
      exact ⟨sub_eq_zero.mp (pow_eq_zero_iff two_ne_zero |>.mp h1),
        sub_eq_zero.mp (pow_eq_zero_iff two_ne_zero |>.mp h2)⟩
    · rintro ⟨h1, h2⟩
      rw [h1, h2]
      norm_num
  exact ⟨key, by rw [pow_eq_zero_iff (three_ne_zero (α := ℕ))]; exact key⟩

/-- Unfolding equation of `argminP` on a list of length at least two. -/
lemma argminP_cons_cons (a b : ℝ) (rs : List ℝ) :
    argminP (a :: b :: rs) =
      if (argminP (b :: rs)).2 < a then
        ((argminP (b :: rs)).1 + 1, (argminP (b :: rs)).2)
      else (0, a) := by
  simp [argminP]

/-- The value tracked by `argminP` is a lower bound for every element. -/
lemma argminP_snd_le (l : List ℝ) :
    ∀ k, k < l.length → (argminP l).2 ≤ l.getD k 0 := by
  induction l with
  | nil => intro k hk; simp at hk
  | cons a rest ih =>
    intro k hk
    cases rest with
    | nil =>
      have hk0 : k = 0 := Nat.lt_one_iff.mp (by simpa using hk)
      subst hk0
      simp [argminP]
    | cons b rs =>
      rw [argminP_cons_cons]
      by_cases hlt : (argminP (b :: rs)).2 < a
      · rw [if_pos hlt]
        cases k with
        | zero => simpa using le_of_lt hlt
        | succ k' =>
          have hk' : k' < (b :: rs).length := by simpa using hk
          simpa using ih k' hk'
      · rw [if_neg hlt]
        push_neg at hlt
        cases k with
        | zero => simp
        | succ k' =>
          have hk' : k' < (b :: rs).length := by simpa using hk
          have h2 := ih k' hk'
          simp only [List.getD_cons_succ]
          exact le_trans hlt h2

/-- The index tracked by `argminP` is in bounds for a nonempty list. -/
lemma argminP_fst_lt (l : List ℝ) (h : l ≠ []) : (argminP l).1 < l.length := by
  induction l with
  | nil => exact absurd rfl h
  | cons a rest ih =>
    cases rest with
    | nil => simp [argminP]
    | cons b rs =>
      rw [argminP_cons_cons]
      by_cases hlt : (argminP (b :: rs)).2 < a
      · rw [if_pos hlt]
        have hb := ih (by simp)
        simpa using Nat.succ_lt_succ hb
      · rw [if_neg hlt]; simp

/-- The element at the `argminP` index is the tracked minimum value. -/
lemma argminP_getD (l : List ℝ) (h : l ≠ []) :
    l.getD (argminP l).1 0 = (argminP l).2 := by
  induction l with
  | nil => exact absurd rfl h
  | cons a rest ih =>
    cases rest with
    | nil => simp [argminP]
    | cons b rs =>
      rw [argminP_cons_cons]
      by_cases hlt : (argminP (b :: rs)).2 < a
      · rw [if_pos hlt]
        simp only [List.getD_cons_succ]
        simpa using ih (by simp)
      · rw [if_neg hlt]; simp

/-- Bound for the argmin index of a mapped list in terms of the base list. -/
lemma argmin_map_lt (f : ℝ → ℝ) (l : List ℝ) (h : l ≠ []) :
    (argminP (l.map f)).1 < l.length := by
  have hm : l.map f ≠ [] := fun hc => h (List.map_eq_nil_iff.mp hc)
  simpa using argminP_fst_lt (l.map f) hm

/-- The argmin index of a mapped list minimizes the mapped values over the
base list. -/
lemma argmin_map_min (f : ℝ → ℝ) (l : List ℝ) (h : l ≠ []) :
    ∀ k, k < l.length →
      f (l.getD (argminP (l.map f)).1 0) ≤ f (l.getD k 0) := by
  intro k hk
  have hm : l.map f ≠ [] := fun hc => h (List.map_eq_nil_iff.mp hc)
  have hidx : (argminP (l.map f)).1 < l.length := argmin_map_lt f l h
  have h1 : (l.map f).getD (argminP (l.map f)).1 0 =
      f (l.getD (argminP (l.map f)).1 0) := by
    rw [List.getD_eq_getElem _ _ (by simpa using hidx),
      List.getD_eq_getElem _ _ hidx, List.getElem_map]
  have h2 : (l.map f).getD k 0 = f (l.getD k 0) := by
    rw [List.getD_eq_getElem _ _ (by simpa using hk),
      List.getD_eq_getElem _ _ hk, List.getElem_map]
  have h3 := argminP_snd_le (l.map f) k (by simpa using hk)
  have h4 := argminP_getD (l.map f) hm
  calc f (l.getD (argminP (l.map f)).1 0) = (l.map f).getD (argminP (l.map f)).1 0 :=
        h1.symm
    _ = (argminP (l.map f)).2 := h4
    _ ≤ (l.map f).getD k 0 := h3
    _ = f (l.getD k 0) := h2

/-- C9: For every nonempty time list, `start_stop_indices` returns in-bounds
indices whose sample times minimize the absolute difference to
`plot_start` resp. `plot_stop` over all indices, and the two verbatim
definitions of the helper compute the same function. -/
theorem start_stop_indices_nearest (t_pts : List ℝ) (h : t_pts ≠ [])
    (plot_start plot_stop : ℝ) :
    (start_stop_indices t_pts plot_start plot_stop).1 < t_pts.length ∧
    (start_stop_indices t_pts plot_start plot_stop).2 < t_pts.length ∧
    (∀ k, k < t_pts.length →
      |t_pts.getD (start_stop_indices t_pts plot_start plot_stop).1 0 - plot_start| ≤
        |t_pts.getD k 0 - plot_start|) ∧
    (∀ k, k < t_pts.length →
      |t_pts.getD (start_stop_indices t_pts plot_start plot_stop).2 0 - plot_stop| ≤
        |t_pts.getD k 0 - plot_stop|) ∧
    start_stop_indices t_pts plot_start plot_stop =
      start_stop_indices2 t_pts plot_start plot_stop := by
  refine ⟨argmin_map_lt _ _ h, argmin_map_lt _ _ h, ?_, ?_, rfl⟩
  · exact fun k hk => argmin_map_min (fun t => |t - plot_start|) t_pts h k hk
  · exact fun k hk => argmin_map_min (fun t => |t - plot_stop|) t_pts h k hk

/-- Witness for C9 on the sample times `[0, 1, 2]` with the window
`[0.9, 1.9]`. -/
theorem start_stop_indices_nearest_witness :
    (([0, 1, 2] : List ℝ) ≠ []) ∧
    ((start_stop_indices [0, 1, 2] 0.9 1.9).1 < ([0, 1, 2] : List ℝ).length ∧
      (start_stop_indices [0, 1, 2] 0.9 1.9).2 < ([0, 1, 2] : List ℝ).length ∧
      (∀ k, k < ([0, 1, 2] : List ℝ).length →
        |([0, 1, 2] : List ℝ).getD (start_stop_indices [0, 1, 2] 0.9 1.9).1 0 - 0.9| ≤
          |([0, 1, 2] : List ℝ).getD k 0 - 0.9|) ∧
      (∀ k, k < ([0, 1, 2] : List ℝ).length →
        |([0, 1, 2] : List ℝ).getD (start_stop_indices [0, 1, 2] 0.9 1.9).2 0 - 1.9| ≤
          |([0, 1, 2] : List ℝ).getD k 0 - 1.9|) ∧
      start_stop_indices [0, 1, 2] 0.9 1.9 = start_stop_indices2 [0, 1, 2] 0.9 1.9) := by
  have h : ([0, 1, 2] : List ℝ) ≠ [] := by simp
  exact ⟨h, start_stop_indices_nearest [0, 1, 2] h 0.9 1.9⟩

/-- First element of a nonempty list via its defaulted accessor. -/
lemma list_headD_eq_head {α : Type} (l : List α) (h : l ≠ []) (d : α) :
    l.headD d = l.head h := by
  cases l with
  | nil => exact absurd rfl h
  | cons a t => rfl

/-- Last element of a nonempty list via its defaulted accessor. -/
lemma list_getLastD_eq_getLast {α : Type} (l : List α) (h : l ≠ []) (d : α) :
    l.getLastD d = l.getLast h := by
  rw [List.getLastD_eq_getLast?, List.getLast?_eq_getLast_of_ne_nil h]
  rfl

/-- C8: Both `solve_ode` drivers, called with their default tolerances on a
nonempty time list, hand the external solver exactly the span from the
first to the last requested time, the requested evaluation times, the
initial state in order, the vector field `dy_dt`, and tolerances
`1e-9`/`1e-9`; and whenever the solver meets its documented shape contract
(one row per state component, each row aligned with `t_eval`), the driver
returns one sequence per state component (8 for the two-body system, 4 for
the pendulum), each of the input time list's length. -/
theorem solve_ode_invocation (p : Orbit) (q : DoublePendulum)
    (os : IVPCall 8 → List (List ℝ)) (qs : IVPCall 4 → List (List ℝ))
    (t_pts : List ℝ) (h : t_pts ≠ [])
    (x_1_0 x_1_dot_0 y_1_0 y_1_dot_0 x_2_0 x_2_dot_0 y_2_0 y_2_dot_0 : ℝ)
    (phi_1_0 phi_1_dot_0 phi_2_0 phi_2_dot_0 : ℝ)
    (hos : ∀ c : IVPCall 8, (os c).length = c.y0.length ∧
      ∀ r ∈ os c, r.length = c.t_eval.length)
    (hqs : ∀ c : IVPCall 4, (qs c).length = c.y0.length ∧
      ∀ r ∈ qs c, r.length = c.t_eval.length) :
    (let c := p.solve_ode_call t_pts x_1_0 x_1_dot_0 y_1_0 y_1_dot_0 x_2_0
        x_2_dot_0 y_2_0 y_2_dot_0 (1e-9) (1e-9)
     c.rhs = p.dy_dt ∧ c.t0 = t_pts.head h ∧ c.tf = t_pts.getLast h ∧
       c.t_eval = t_pts ∧ c.atol = 1e-9 ∧ c.rtol = 1e-9 ∧
       c.y0 = [x_1_0, x_1_dot_0, y_1_0, y_1_dot_0, x_2_0, x_2_dot_0, y_2_0, y_2_dot_0] ∧
       p.solve_ode_default os t_pts x_1_0 x_1_dot_0 y_1_0 y_1_dot_0 x_2_0
           x_2_dot_0 y_2_0 y_2_dot_0 = some (os c) ∧
       (os c).length = 8 ∧ ∀ r ∈ os c, r.length = t_pts.length) ∧
    (let c := q.solve_ode_call t_pts phi_1_0 phi_1_dot_0 phi_2_0 phi_2_dot_0
        (1e-9) (1e-9)
     c.rhs = q.dy_dt ∧ c.t0 = t_pts.head h ∧ c.tf = t_pts.getLast h ∧
       c.t_eval = t_pts ∧ c.atol = 1e-9 ∧ c.rtol = 1e-9 ∧
       c.y0 = [phi_1_0, phi_1_dot_0, phi_2_0, phi_2_dot_0] ∧
       q.solve_ode_default qs t_pts phi_1_0 phi_1_dot_0 phi_2_0 phi_2_dot_0 =
         some (qs c) ∧
       (qs c).length = 4 ∧ ∀ r ∈ qs c, r.length = t_pts.length) := by
  constructor
  · set c := p.solve_ode_call t_pts x_1_0 x_1_dot_0 y_1_0 y_1_dot_0 x_2_0
      x_2_dot_0 y_2_0 y_2_dot_0 (1e-9) (1e-9) with hc
    have hlen : (os c).length = 8 := (hos c).1.trans rfl
    refine ⟨rfl, list_headD_eq_head t_pts h 0, list_getLastD_eq_getLast t_pts h 0,
      rfl, rfl, rfl, rfl, ?_, hlen, fun r hr => (hos c).2 r hr⟩
    show (if (os c).length = 8 then some (os c) else none) = some (os c)
    rw [if_pos hlen]
  · set c := q.solve_ode_call t_pts phi_1_0 phi_1_dot_0 phi_2_0 phi_2_dot_0
      (1e-9) (1e-9) with hc
    have hlen : (qs c).length = 4 := (hqs c).1.trans rfl
    refine ⟨rfl, list_headD_eq_head t_pts h 0, list_getLastD_eq_getLast t_pts h 0,
      rfl, rfl, rfl, rfl, ?_, hlen, fun r hr => (hqs c).2 r hr⟩
    show (if (qs c).length = 4 then some (qs c) else none) = some (qs c)
    rw [if_pos hlen]

/-- A concrete external solver used to witness the shape contract: it
returns one copy of the evaluation-time list per initial-state
component. -/
noncomputable def demoSolver (n : ℕ) : IVPCall n → List (List ℝ) :=
  fun c => c.y0.map (fun _ => c.t_eval)

/-- The demo solver satisfies the documented shape contract. -/
lemma demoSolver_contract (n : ℕ) :
    ∀ c : IVPCall n, (demoSolver n c).length = c.y0.length ∧
      ∀ r ∈ demoSolver n c, r.length = c.t_eval.length := by
  intro c
  refine ⟨List.length_map _ _, ?_⟩
  intro r hr
  rcases List.mem_map.mp hr with ⟨a, _, ha⟩
  rw [← ha]

/-- A two-element time list is nonempty. -/
lemma two_pts_ne_nil : ([0, 1] : List ℝ) ≠ [] := by simp

/-- Witness for C8 at the notebook parameters, time list `[0, 1]`, zero
initial conditions, and the demo solver. -/
theorem solve_ode_invocation_witness :
    (([0, 1] : List ℝ) ≠ []) ∧
    (∀ c : IVPCall 8, (demoSolver 8 c).length = c.y0.length ∧
      ∀ r ∈ demoSolver 8 c, r.length = c.t_eval.length) ∧
    (∀ c : IVPCall 4, (demoSolver 4 c).length = c.y0.length ∧
      ∀ r ∈ demoSolver 4 c, r.length = c.t_eval.length) ∧
    ((let c := Orbit.solve_ode_call ⟨20, 1, 20⟩ [0, 1] 0 0 0 0 0 0 0 0 (1e-9) (1e-9)
      c.rhs = Orbit.dy_dt ⟨20, 1, 20⟩ ∧ c.t0 = ([0, 1] : List ℝ).head two_pts_ne_nil ∧
        c.tf = ([0, 1] : List ℝ).getLast two_pts_ne_nil ∧
        c.t_eval = [0, 1] ∧ c.atol = 1e-9 ∧ c.rtol = 1e-9 ∧
        c.y0 = [0, 0, 0, 0, 0, 0, 0, 0] ∧
        Orbit.solve_ode_default ⟨20, 1, 20⟩ (demoSolver 8) [0, 1] 0 0 0 0 0 0 0 0 =
          some (demoSolver 8 c) ∧
        (demoSolver 8 c).length = 8 ∧
        ∀ r ∈ demoSolver 8 c, r.length = ([0, 1] : List ℝ).length) ∧
      (let c := DoublePendulum.solve_ode_call ⟨1, 1, 1, 1, 1⟩ [0, 1] 0 0 0 0
          (1e-9) (1e-9)
       c.rhs = DoublePendulum.dy_dt ⟨1, 1, 1, 1, 1⟩ ∧
         c.t0 = ([0, 1] : List ℝ).head two_pts_ne_nil ∧
         c.tf = ([0, 1] : List ℝ).getLast two_pts_ne_nil ∧
         c.t_eval = [0, 1] ∧ c.atol = 1e-9 ∧ c.rtol = 1e-9 ∧
         c.y0 = [0, 0, 0, 0] ∧
         DoublePendulum.solve_ode_default ⟨1, 1, 1, 1, 1⟩ (demoSolver 4) [0, 1]
             0 0 0 0 = some (demoSolver 4 c) ∧
         (demoSolver 4 c).length = 4 ∧
         ∀ r ∈ demoSolver 4 c, r.length = ([0, 1] : List ℝ).length)) :=
  ⟨two_pts_ne_nil, demoSolver_contract 8, demoSolver_contract 4,
    solve_ode_invocation ⟨20, 1, 20⟩ ⟨1, 1, 1, 1, 1⟩ (demoSolver 8) (demoSolver 4)
      [0, 1] two_pts_ne_nil 0 0 0 0 0 0 0 0 0 0 0 0
      (demoSolver_contract 8) (demoSolver_contract 4)⟩
